import Mathlib

/-!
Shallow embedding of the django-api recipe backend.

The repository is a Django/DRF application.  The files under verification:
  * `app/recipe/serializers.py` — nested tag/ingredient get-or-create and
    recipe update logic (present in the source tree);
  * `app/core/models.py` — the user manager (`create_user`,
    `normalize_email`) is not in the source excerpt; it is modelled from the
    spec where a claim needs it;
  * `app/recipe/views.py` — the view sets are not in the source excerpt;
    they are modelled from the spec where a claim needs it.

The relational store is embedded as explicit lists of rows; Django's
`Model.objects.get_or_create`, many-to-many `add`/`clear`, and queryset
`filter` become the corresponding pure list operations.  Monetary amounts
(`DecimalField` with two places) are embedded as integer cents.
-/

/-- A row of the custom `User` model (`core/models.py`).  The password hash
and `last_login` play no role in any claim and are omitted. -/
structure User where
  id : Nat
  email : String
  name : String
  is_active : Bool
  is_staff : Bool
  is_superuser : Bool
deriving Repr, DecidableEq

/-- A row of the `Tag` model: `{id, user (FK), name}`. -/
structure Tag where
  id : Nat
  user : Nat
  name : String
deriving Repr, DecidableEq

/-- A row of the `Ingredient` model: same shape as `Tag`. -/
structure Ingredient where
  id : Nat
  user : Nat
  name : String
deriving Repr, DecidableEq

/-- A row of the `Recipe` model.  The many-to-many relations to `Tag` and
`Ingredient` are embedded as the lists of associated row ids. -/
structure Recipe where
  id : Nat
  user : Nat
  title : String
  time_minutes : Nat
  price : Int
  link : String
  description : String
  tags : List Nat
  ingredients : List Nat
deriving Repr, DecidableEq

/-- The relational store: one table per model, plus the id sequences. -/
structure Db where
  users : List User
  recipes : List Recipe
  tags : List Tag
  ingredients : List Ingredient
  next_user_id : Nat
  next_tag_id : Nat
  next_ingredient_id : Nat
deriving Repr, DecidableEq

/-- Django many-to-many `add`: associating an already-associated row is a
no-op, otherwise the association is appended. -/
def m2m_add (assocs : List Nat) (rowId : Nat) : List Nat :=
  if rowId ∈ assocs then assocs else assocs ++ [rowId]

/-- The uniqueness key used by `Tag.objects.get_or_create(user=..., name=...)`. -/
def tagKey (u : Nat) (n : String) (t : Tag) : Bool :=
  t.user == u && t.name == n

/-- The uniqueness key used by `Ingredient.objects.get_or_create(user=..., name=...)`. -/
def ingredientKey (u : Nat) (n : String) (i : Ingredient) : Bool :=
  i.user == u && i.name == n

/-- Embeds `Tag.objects.get_or_create(user=auth_user, name=n)`: return the existing
row keyed on `(user, name)` if there is one, otherwise insert a fresh row. -/
def Tag.get_or_create (db : Db) (u : Nat) (n : String) : Tag × Db :=
  match db.tags.find? (tagKey u n) with
  | some t => (t, db)
  | none =>
      let t : Tag := ⟨db.next_tag_id, u, n⟩
      (t, { db with tags := db.tags ++ [t], next_tag_id := db.next_tag_id + 1 })

/-- Embeds `Ingredient.objects.get_or_create(user=auth_user, name=n)`. -/
def Ingredient.get_or_create (db : Db) (u : Nat) (n : String) : Ingredient × Db :=
  match db.ingredients.find? (ingredientKey u n) with
  | some i => (i, db)
  | none =>
      let i : Ingredient := ⟨db.next_ingredient_id, u, n⟩
      (i, { db with ingredients := db.ingredients ++ [i],
                    next_ingredient_id := db.next_ingredient_id + 1 })

/-- Embeds `RecipeSerializer._get_or_create_tags` (`serializers.py` 48-56): for each
payload item, resolve it scoped to the authenticated user and associate it
with the recipe.  A nested payload item carries only `name` because
`TagSerializer` declares `id` read-only. -/
def RecipeSerializer.get_or_create_tags (db : Db) (auth_user : Nat)
    (recipe : Recipe) (tags : List String) : Recipe × Db :=
  match tags with
  | [] => (recipe, db)
  | n :: rest =>
      let p := Tag.get_or_create db auth_user n
      RecipeSerializer.get_or_create_tags p.2 auth_user
        { recipe with tags := m2m_add recipe.tags p.1.id } rest

/-- Embeds `RecipeSerializer._get_or_create_ingredients` (`serializers.py` 58-66). -/
def RecipeSerializer.get_or_create_ingredients (db : Db) (auth_user : Nat)
    (recipe : Recipe) (ingredients : List String) : Recipe × Db :=
  match ingredients with
  | [] => (recipe, db)
  | n :: rest =>
      let p := Ingredient.get_or_create db auth_user n
      RecipeSerializer.get_or_create_ingredients p.2 auth_user
        { recipe with ingredients := m2m_add recipe.ingredients p.1.id } rest

/-- The validated data reaching `RecipeSerializer.update`: each writable
field of `Meta.fields` is present or absent (`validated_data.pop(..., None)`
distinguishes the two). -/
structure RecipePayload where
  title : Option String
  time_minutes : Option Nat
  price : Option Int
  link : Option String
  description : Option String
  tags : Option (List String)
  ingredients : Option (List String)
deriving Repr, DecidableEq

/-- A raw request body before validation.  It may name fields the serializer
does not accept, in particular `user` and the read-only `id`. -/
structure RawPayload where
  id : Option Nat
  user : Option Nat
  title : Option String
  time_minutes : Option Nat
  price : Option Int
  link : Option String
  description : Option String
  tags : Option (List String)
  ingredients : Option (List String)
deriving Repr, DecidableEq

/-- Embeds `RecipeSerializer.Meta.fields` (`serializers.py` 36-45). -/
def RecipeSerializer.Meta.fields : List String :=
  ["id", "title", "time_minutes", "price", "link", "description",
   "tags", "ingredients"]

/-- Embeds `RecipeSerializer.Meta.read_only_fields` (`serializers.py` 46). -/
def RecipeSerializer.Meta.read_only_fields : List String :=
  ["id"]

/-- DRF validation for `RecipeSerializer`: only the writable declared fields
reach `validated_data`.  `user` is not in `Meta.fields` and `id` is
read-only, so both are dropped. -/
def RecipeSerializer.run_validation (raw : RawPayload) : RecipePayload :=
  { title := raw.title
    time_minutes := raw.time_minutes
    price := raw.price
    link := raw.link
    description := raw.description
    tags := raw.tags
    ingredients := raw.ingredients }

/-- The `for attr, val in validated_data.items(): setattr(recipe, attr, val)`
loop of `RecipeSerializer.update`: after the two pops, `validated_data`
holds exactly the scalar fields that were present in the payload. -/
def RecipeSerializer.set_scalar_attrs (recipe : Recipe) (vd : RecipePayload) : Recipe :=
  { recipe with
    title := vd.title.getD recipe.title
    time_minutes := vd.time_minutes.getD recipe.time_minutes
    price := vd.price.getD recipe.price
    link := vd.link.getD recipe.link
    description := vd.description.getD recipe.description }

/-- Embeds `recipe.save()`: write the instance back to its table row. -/
def saveRecipe (db : Db) (r : Recipe) : Db :=
  { db with recipes := db.recipes.map (fun x => if x.id == r.id then r else x) }

/-- Embeds `RecipeSerializer.update` (`serializers.py` 77-93): pop tags and
ingredients; when a popped field is not `None`, clear the association set and
re-resolve the payload items; then assign the remaining scalar attributes and
save. -/
def RecipeSerializer.update (db : Db) (auth_user : Nat)
    (recipe : Recipe) (vd : RecipePayload) : Recipe × Db :=
  let s1 : Recipe × Db :=
    match vd.tags with
    | none => (recipe, db)
    | some ts =>
        RecipeSerializer.get_or_create_tags db auth_user
          { recipe with tags := [] } ts
  let s2 : Recipe × Db :=
    match vd.ingredients with
    | none => s1
    | some ings =>
        RecipeSerializer.get_or_create_ingredients s1.2 auth_user
          { s1.1 with ingredients := [] } ings
  let r := RecipeSerializer.set_scalar_attrs s2.1 vd
  (r, saveRecipe s2.2 r)

/-- Embeds `RecipeSerializer.create` (`serializers.py` 68-75). -/
def RecipeSerializer.create (db : Db) (auth_user : Nat)
    (nextRecipeId : Nat) (vd : RecipePayload) : Recipe × Db :=
  let base : Recipe :=
    { id := nextRecipeId
      user := auth_user
      title := vd.title.getD ""
      time_minutes := vd.time_minutes.getD 0
      price := vd.price.getD 0
      link := vd.link.getD ""
      description := vd.description.getD ""
      tags := []
      ingredients := [] }
  let s1 := RecipeSerializer.get_or_create_tags db auth_user base (vd.tags.getD [])
  let s2 := RecipeSerializer.get_or_create_ingredients s1.2 auth_user s1.1
    (vd.ingredients.getD [])
  (s2.1, { s2.2 with recipes := s2.2.recipes ++ [s2.1] })

/-- Embeds `RecipeDetailSerializer.Meta.fields` (`serializers.py` 101):
`fields = RecipeSerializer.Meta.fields`. -/
def RecipeDetailSerializer.Meta.fields : List String :=
  RecipeSerializer.Meta.fields

/-- Embeds `RecipeDetailSerializer.Meta.read_only_fields` (`serializers.py` 102). -/
def RecipeDetailSerializer.Meta.read_only_fields : List String :=
  ["id"]

/-- The JSON value of a nested tag item produced by `TagSerializer`
(`fields = ['id', 'name']`). -/
structure TagRep where
  id : Nat
  name : String
deriving Repr, DecidableEq

/-- The JSON value of a nested ingredient item produced by
`IngredientSerializer` (`fields = ['id', 'name']`). -/
structure IngredientRep where
  id : Nat
  name : String
deriving Repr, DecidableEq

/-- A JSON field value appearing in a serialized recipe. -/
inductive FieldValue where
  | natV : Nat → FieldValue
  | strV : String → FieldValue
  | intV : Int → FieldValue
  | tagsV : List TagRep → FieldValue
  | ingredientsV : List IngredientRep → FieldValue
deriving Repr, DecidableEq

/-- Output of `TagSerializer` for one row. -/
def TagSerializer.to_representation (t : Tag) : TagRep :=
  ⟨t.id, t.name⟩

/-- Output of `IngredientSerializer` for one row. -/
def IngredientSerializer.to_representation (i : Ingredient) : IngredientRep :=
  ⟨i.id, i.name⟩

/-- Embeds `recipe.tags.all()`: the tag rows associated with the recipe. -/
def recipeTagRows (db : Db) (r : Recipe) : List Tag :=
  db.tags.filter (fun t => r.tags.contains t.id)

/-- Embeds `recipe.ingredients.all()`: the ingredient rows associated with the recipe. -/
def recipeIngredientRows (db : Db) (r : Recipe) : List Ingredient :=
  db.ingredients.filter (fun i => r.ingredients.contains i.id)

/-- The value a `ModelSerializer` renders for one declared field name of a
recipe; `none` for a name that is not a field of the model. -/
def recipeFieldValue (db : Db) (r : Recipe) (f : String) : Option FieldValue :=
  if f == "id" then some (.natV r.id)
  else if f == "title" then some (.strV r.title)
  else if f == "time_minutes" then some (.natV r.time_minutes)
  else if f == "price" then some (.intV r.price)
  else if f == "link" then some (.strV r.link)
  else if f == "description" then some (.strV r.description)
  else if f == "tags" then
    some (.tagsV ((recipeTagRows db r).map TagSerializer.to_representation))
  else if f == "ingredients" then
    some (.ingredientsV
      ((recipeIngredientRows db r).map IngredientSerializer.to_representation))
  else none

/-- A `ModelSerializer` representation is the association list of the
declared field names and their rendered values. -/
def representationFor (fields : List String) (db : Db) (r : Recipe) :
    List (String × FieldValue) :=
  fields.filterMap (fun f => (recipeFieldValue db r f).map (fun v => (f, v)))

/-- Embeds `RecipeSerializer(recipe).data`. -/
def RecipeSerializer.to_representation (db : Db) (r : Recipe) :
    List (String × FieldValue) :=
  representationFor RecipeSerializer.Meta.fields db r

/-- Embeds `RecipeDetailSerializer(recipe).data`. -/
def RecipeDetailSerializer.to_representation (db : Db) (r : Recipe) :
    List (String × FieldValue) :=
  representationFor RecipeDetailSerializer.Meta.fields db r

/-- Modelled from the spec: `core/models.py` (the `UserManager`) is not in
the source excerpt.  The spec says the manager "normalizes email domain
casing", i.e. lower-cases the domain part only.  The split is at the last
`@` of the address; an address without `@` is left unchanged.  The helper
splits a character list at its last `@`, returning the parts before and
after it. -/
def splitAtLastAt : List Char → Option (List Char × List Char)
  | [] => none
  | c :: cs =>
      match splitAtLastAt cs with
      | some (l, d) => some (c :: l, d)
      | none => if c = '@' then some ([], cs) else none

/-- Modelled from the spec: `UserManager.normalize_email` lower-cases the
domain (the part after the last `@`) and preserves the local part. -/
def UserManager.normalize_email (email : String) : String :=
  match splitAtLastAt email.data with
  | some (l, d) => ⟨l ++ '@' :: d.map Char.toLower⟩
  | none => email

/-- Modelled from the spec: `UserManager.create_user` (`core/models.py`, not
in the source excerpt) requires a non-empty email — raising `ValueError`
otherwise — and stores the normalized email.  Password hashing is outside
the data model. -/
def UserManager.create_user (db : Db) (email : String) :
    Except String (User × Db) :=
  if email = "" then Except.error "User must have an email address"
  else
    let u : User :=
      { id := db.next_user_id
        email := UserManager.normalize_email email
        name := ""
        is_active := true
        is_staff := false
        is_superuser := false }
    Except.ok (u, { db with users := db.users ++ [u],
                            next_user_id := db.next_user_id + 1 })

/-- Modelled from the spec: `recipe/views.py` is not in the source excerpt;
the spec says the view sets scope their queryset to `request.user`. -/
def RecipeViewSet.get_queryset (db : Db) (auth_user : Nat) : List Recipe :=
  db.recipes.filter (fun r => r.user == auth_user)

/-- Modelled from the spec: the list endpoint serializes the scoped
queryset. -/
def RecipeViewSet.list (db : Db) (auth_user : Nat) :
    List (List (String × FieldValue)) :=
  (RecipeViewSet.get_queryset db auth_user).map
    (RecipeSerializer.to_representation db)

/-- Modelled from the spec: retrieve looks the id up in the scoped queryset;
a miss is a 404. -/
def RecipeViewSet.retrieve (db : Db) (auth_user : Nat) (rid : Nat) :
    Except Nat (List (String × FieldValue)) :=
  match (RecipeViewSet.get_queryset db auth_user).find? (fun r => r.id == rid) with
  | some r => Except.ok (RecipeDetailSerializer.to_representation db r)
  | none => Except.error 404

/-- Modelled from the spec: destroy looks the id up in the scoped queryset;
a hit deletes the row and answers 204, a miss answers 404 and changes
nothing. -/
def RecipeViewSet.destroy (db : Db) (auth_user : Nat) (rid : Nat) : Nat × Db :=
  match (RecipeViewSet.get_queryset db auth_user).find? (fun r => r.id == rid) with
  | some _ =>
      (204, { db with recipes := db.recipes.filter (fun r => r.id != rid) })
  | none => (404, db)

/-! ### Helper lemmas about the embedded operations -/

/-- The association/table effect of `_get_or_create_tags`, separated from the
recipe record it is threaded through. -/
def resolveTags (db : Db) (u : Nat) (assocs : List Nat) :
    List String → List Nat × Db
  | [] => (assocs, db)
  | n :: rest =>
      let p := Tag.get_or_create db u n
      resolveTags p.2 u (m2m_add assocs p.1.id) rest

/-- The association/table effect of `_get_or_create_ingredients`. -/
def resolveIngredients (db : Db) (u : Nat) (assocs : List Nat) :
    List String → List Nat × Db
  | [] => (assocs, db)
  | n :: rest =>
      let p := Ingredient.get_or_create db u n
      resolveIngredients p.2 u (m2m_add assocs p.1.id) rest

theorem get_or_create_tags_eq :
    ∀ (ts : List String) (db : Db) (u : Nat) (r : Recipe),
    RecipeSerializer.get_or_create_tags db u r ts
      = ({ r with tags := (resolveTags db u r.tags ts).1 },
         (resolveTags db u r.tags ts).2)
  | [], _, _, _ => rfl
  | n :: rest, db, u, r => by
      simp only [RecipeSerializer.get_or_create_tags, resolveTags]
      exact get_or_create_tags_eq rest _ u _

theorem get_or_create_ingredients_eq :
    ∀ (ings : List String) (db : Db) (u : Nat) (r : Recipe),
    RecipeSerializer.get_or_create_ingredients db u r ings
      = ({ r with ingredients := (resolveIngredients db u r.ingredients ings).1 },
         (resolveIngredients db u r.ingredients ings).2)
  | [], _, _, _ => rfl
  | n :: rest, db, u, r => by
      simp only [RecipeSerializer.get_or_create_ingredients, resolveIngredients]
      exact get_or_create_ingredients_eq rest _ u _

theorem Tag.get_or_create_user_name (db : Db) (u : Nat) (n : String) :
    (Tag.get_or_create db u n).1.user = u ∧ (Tag.get_or_create db u n).1.name = n := by
  unfold Tag.get_or_create
  cases h : db.tags.find? (tagKey u n) with
  | none => exact ⟨rfl, rfl⟩
  | some t =>
      have hk := List.find?_some h
      simp only [tagKey, Bool.and_eq_true, beq_iff_eq] at hk
      exact ⟨hk.1, hk.2⟩

theorem Ingredient.get_or_create_owner_name (db : Db) (u : Nat) (n : String) :
    (Ingredient.get_or_create db u n).1.user = u
      ∧ (Ingredient.get_or_create db u n).1.name = n := by
  unfold Ingredient.get_or_create
  cases h : db.ingredients.find? (ingredientKey u n) with
  | none => exact ⟨rfl, rfl⟩
  | some i =>
      have hk := List.find?_some h
      simp only [ingredientKey, Bool.and_eq_true, beq_iff_eq] at hk
      exact ⟨hk.1, hk.2⟩

theorem Tag.get_or_create_self_mem (db : Db) (u : Nat) (n : String) :
    (Tag.get_or_create db u n).1 ∈ (Tag.get_or_create db u n).2.tags := by
  unfold Tag.get_or_create
  cases h : db.tags.find? (tagKey u n) with
  | none => simp
  | some t => exact List.mem_of_find?_eq_some h

theorem Ingredient.get_or_create_row_mem (db : Db) (u : Nat) (n : String) :
    (Ingredient.get_or_create db u n).1 ∈ (Ingredient.get_or_create db u n).2.ingredients := by
  unfold Ingredient.get_or_create
  cases h : db.ingredients.find? (ingredientKey u n) with
  | none => simp
  | some i => exact List.mem_of_find?_eq_some h

theorem Tag.get_or_create_table_mono (db : Db) (u : Nat) (n : String)
    (t : Tag) (h : t ∈ db.tags) : t ∈ (Tag.get_or_create db u n).2.tags := by
  unfold Tag.get_or_create
  cases hf : db.tags.find? (tagKey u n) with
  | none => simp [h]
  | some t0 => exact h

theorem Ingredient.get_or_create_rows_mono (db : Db) (u : Nat) (n : String)
    (i : Ingredient) (h : i ∈ db.ingredients) :
    i ∈ (Ingredient.get_or_create db u n).2.ingredients := by
  unfold Ingredient.get_or_create
  cases hf : db.ingredients.find? (ingredientKey u n) with
  | none => simp [h]
  | some i0 => exact h

theorem Tag.get_or_create_other_tables (db : Db) (u : Nat) (n : String) :
    (Tag.get_or_create db u n).2.ingredients = db.ingredients
      ∧ (Tag.get_or_create db u n).2.recipes = db.recipes
      ∧ (Tag.get_or_create db u n).2.users = db.users := by
  unfold Tag.get_or_create
  cases h : db.tags.find? (tagKey u n) <;> exact ⟨rfl, rfl, rfl⟩

theorem Ingredient.get_or_create_rest_tables (db : Db) (u : Nat) (n : String) :
    (Ingredient.get_or_create db u n).2.tags = db.tags
      ∧ (Ingredient.get_or_create db u n).2.recipes = db.recipes
      ∧ (Ingredient.get_or_create db u n).2.users = db.users := by
  unfold Ingredient.get_or_create
  cases h : db.ingredients.find? (ingredientKey u n) <;> exact ⟨rfl, rfl, rfl⟩

theorem m2m_add_self (l : List Nat) (i : Nat) : i ∈ m2m_add l i := by
  unfold m2m_add
  by_cases h : i ∈ l <;> simp [h]

theorem m2m_add_mono (l : List Nat) (i j : Nat) (h : j ∈ l) : j ∈ m2m_add l i := by
  unfold m2m_add
  by_cases hi : i ∈ l <;> simp [hi, h]

theorem resolveTags_assoc_mono :
    ∀ (ts : List String) (db : Db) (u : Nat) (a : List Nat) (i : Nat),
    i ∈ a → i ∈ (resolveTags db u a ts).1
  | [], _, _, _, _, h => h
  | n :: rest, db, u, a, i, h => by
      simp only [resolveTags]
      exact resolveTags_assoc_mono rest _ u _ i (m2m_add_mono _ _ _ h)

theorem resolveIngredients_assoc_mono :
    ∀ (ings : List String) (db : Db) (u : Nat) (a : List Nat) (i : Nat),
    i ∈ a → i ∈ (resolveIngredients db u a ings).1
  | [], _, _, _, _, h => h
  | n :: rest, db, u, a, i, h => by
      simp only [resolveIngredients]
      exact resolveIngredients_assoc_mono rest _ u _ i (m2m_add_mono _ _ _ h)

theorem resolveTags_table_mono :
    ∀ (ts : List String) (db : Db) (u : Nat) (a : List Nat) (t : Tag),
    t ∈ db.tags → t ∈ (resolveTags db u a ts).2.tags
  | [], _, _, _, _, h => h
  | n :: rest, db, u, a, t, h => by
      simp only [resolveTags]
      exact resolveTags_table_mono rest _ u _ t
        (Tag.get_or_create_table_mono db u n t h)

theorem resolveIngredients_table_mono :
    ∀ (ings : List String) (db : Db) (u : Nat) (a : List Nat) (i : Ingredient),
    i ∈ db.ingredients → i ∈ (resolveIngredients db u a ings).2.ingredients
  | [], _, _, _, _, h => h
  | n :: rest, db, u, a, i, h => by
      simp only [resolveIngredients]
      exact resolveIngredients_table_mono rest _ u _ i
        (Ingredient.get_or_create_rows_mono db u n i h)

theorem resolveTags_provides :
    ∀ (ts : List String) (db : Db) (u : Nat) (a : List Nat),
    ∀ n ∈ ts, ∃ t ∈ (resolveTags db u a ts).2.tags,
      t.user = u ∧ t.name = n ∧ t.id ∈ (resolveTags db u a ts).1
  | m :: rest, db, u, a, n, hn => by
      rcases List.mem_cons.mp hn with h | h
      · subst h
        refine ⟨(Tag.get_or_create db u n).1, ?_, ?_, ?_, ?_⟩
        · simp only [resolveTags]
          exact resolveTags_table_mono rest _ u _ _
            (Tag.get_or_create_self_mem db u n)
        · exact (Tag.get_or_create_user_name db u n).1
        · exact (Tag.get_or_create_user_name db u n).2
        · simp only [resolveTags]
          exact resolveTags_assoc_mono rest _ u _ _ (m2m_add_self _ _)
      · simp only [resolveTags]
        exact resolveTags_provides rest _ u _ n h

theorem resolveIngredients_provides :
    ∀ (ings : List String) (db : Db) (u : Nat) (a : List Nat),
    ∀ n ∈ ings, ∃ i ∈ (resolveIngredients db u a ings).2.ingredients,
      i.user = u ∧ i.name = n ∧ i.id ∈ (resolveIngredients db u a ings).1
  | m :: rest, db, u, a, n, hn => by
      rcases List.mem_cons.mp hn with h | h
      · subst h
        refine ⟨(Ingredient.get_or_create db u n).1, ?_, ?_, ?_, ?_⟩
        · simp only [resolveIngredients]
          exact resolveIngredients_table_mono rest _ u _ _
            (Ingredient.get_or_create_row_mem db u n)
        · exact (Ingredient.get_or_create_owner_name db u n).1
        · exact (Ingredient.get_or_create_owner_name db u n).2
        · simp only [resolveIngredients]
          exact resolveIngredients_assoc_mono rest _ u _ _ (m2m_add_self _ _)
      · simp only [resolveIngredients]
        exact resolveIngredients_provides rest _ u _ n h

theorem resolveTags_other_tables :
    ∀ (ts : List String) (db : Db) (u : Nat) (a : List Nat),
    (resolveTags db u a ts).2.ingredients = db.ingredients
      ∧ (resolveTags db u a ts).2.recipes = db.recipes
  | [], _, _, _ => ⟨rfl, rfl⟩
  | n :: rest, db, u, a => by
      simp only [resolveTags]
      have h1 := Tag.get_or_create_other_tables db u n
      have h2 := resolveTags_other_tables rest (Tag.get_or_create db u n).2 u
        (m2m_add a (Tag.get_or_create db u n).1.id)
      exact ⟨h2.1.trans h1.1, h2.2.trans h1.2.1⟩

theorem resolveIngredients_other_tables :
    ∀ (ings : List String) (db : Db) (u : Nat) (a : List Nat),
    (resolveIngredients db u a ings).2.tags = db.tags
      ∧ (resolveIngredients db u a ings).2.recipes = db.recipes
  | [], _, _, _ => ⟨rfl, rfl⟩
  | n :: rest, db, u, a => by
      simp only [resolveIngredients]
      have h1 := Ingredient.get_or_create_rest_tables db u n
      have h2 := resolveIngredients_other_tables rest
        (Ingredient.get_or_create db u n).2 u
        (m2m_add a (Ingredient.get_or_create db u n).1.id)
      exact ⟨h2.1.trans h1.1, h2.2.trans h1.2.1⟩

theorem update_eq_none_none (db : Db) (u : Nat) (r : Recipe) (vd : RecipePayload)
    (hts : vd.tags = none) (hings : vd.ingredients = none) :
    RecipeSerializer.update db u r vd =
      (RecipeSerializer.set_scalar_attrs r vd,
       saveRecipe db (RecipeSerializer.set_scalar_attrs r vd)) := by
  simp only [RecipeSerializer.update, hts, hings]

theorem update_eq_some_none (db : Db) (u : Nat) (r : Recipe) (vd : RecipePayload)
    (ts : List String) (hts : vd.tags = some ts) (hings : vd.ingredients = none) :
    RecipeSerializer.update db u r vd =
      (RecipeSerializer.set_scalar_attrs
        { r with tags := (resolveTags db u [] ts).1 } vd,
       saveRecipe (resolveTags db u [] ts).2
        (RecipeSerializer.set_scalar_attrs
          { r with tags := (resolveTags db u [] ts).1 } vd)) := by
  simp only [RecipeSerializer.update, hts, hings, get_or_create_tags_eq]

theorem update_eq_none_some (db : Db) (u : Nat) (r : Recipe) (vd : RecipePayload)
    (ings : List String) (hts : vd.tags = none) (hings : vd.ingredients = some ings) :
    RecipeSerializer.update db u r vd =
      (RecipeSerializer.set_scalar_attrs
        { r with ingredients := (resolveIngredients db u [] ings).1 } vd,
       saveRecipe (resolveIngredients db u [] ings).2
        (RecipeSerializer.set_scalar_attrs
          { r with ingredients := (resolveIngredients db u [] ings).1 } vd)) := by
  simp only [RecipeSerializer.update, hts, hings, get_or_create_ingredients_eq]

theorem update_eq_some_some (db : Db) (u : Nat) (r : Recipe) (vd : RecipePayload)
    (ts ings : List String)
    (hts : vd.tags = some ts) (hings : vd.ingredients = some ings) :
    RecipeSerializer.update db u r vd =
      (RecipeSerializer.set_scalar_attrs
        { r with tags := (resolveTags db u [] ts).1,
                 ingredients :=
                   (resolveIngredients (resolveTags db u [] ts).2 u [] ings).1 } vd,
       saveRecipe (resolveIngredients (resolveTags db u [] ts).2 u [] ings).2
        (RecipeSerializer.set_scalar_attrs
          { r with tags := (resolveTags db u [] ts).1,
                   ingredients :=
                     (resolveIngredients (resolveTags db u [] ts).2 u [] ings).1 } vd)) := by
  simp only [RecipeSerializer.update, hts, hings, get_or_create_tags_eq,
    get_or_create_ingredients_eq]

/-! ### Concrete fixtures for witnesses and counterexamples -/

def exUser : User := ⟨1, "user@example.com", "", true, false, false⟩

def exUser2 : User := ⟨2, "user2@example.com", "", true, false, false⟩

def tagBreakfast : Tag := ⟨1, 1, "Breakfast"⟩

def exRecipe : Recipe :=
  ⟨1, 1, "Sample recipe", 10, 500, "http://example.com", "Sample description",
   [1], []⟩

def exDb : Db := ⟨[exUser, exUser2], [exRecipe], [tagBreakfast], [], 3, 2, 1⟩

def exPatch : RecipePayload :=
  ⟨some "Avocado lime cheesecake", none, none, none, none, some ["Lunch"], none⟩

def exClear : RecipePayload :=
  ⟨some "Avocado lime cheesecake", none, none, none, none, some [], some []⟩

def exScalarPatch : RecipePayload :=
  ⟨some "Chicken tikka", none, none, none, none, none, none⟩

def db0 : Db := ⟨[], [], [], [], 1, 1, 1⟩

/-! ### Claim theorems -/

/-- C1 counterexample: on a partial update (title and tags only) that
provides the tags field, `RecipeSerializer.update` does not merge with the
existing associations.  The recipe starts associated with tag id 1
("Breakfast"); after the update its associations are exactly the freshly
resolved "Lunch" row (id 2) and the prior association is gone, so it is
false that every association the recipe had before is still present. -/
theorem partial_update_drops_prior_tag :
    1 ∈ exRecipe.tags
      ∧ (RecipeSerializer.update exDb 1 exRecipe exPatch).1.tags = [2]
      ∧ 1 ∉ (RecipeSerializer.update exDb 1 exRecipe exPatch).1.tags := by
  decide

/-- C1 (amended): whenever the tags (resp. ingredients) field is provided in
an update — partial or full alike — `RecipeSerializer.update` replaces the
association set: the outcome is independent of the recipe's prior
associations, and every provided name is resolved scoped to the
authenticated user and associated with the recipe. -/
theorem update_replaces_associations_when_provided
    (db : Db) (u : Nat) (r : Recipe) (vd : RecipePayload) :
    (vd.tags ≠ none →
      RecipeSerializer.update db u r vd
        = RecipeSerializer.update db u { r with tags := [] } vd)
  ∧ (vd.ingredients ≠ none →
      RecipeSerializer.update db u r vd
        = RecipeSerializer.update db u { r with ingredients := [] } vd)
  ∧ (∀ ts, vd.tags = some ts → ∀ n ∈ ts,
      ∃ t ∈ (RecipeSerializer.update db u r vd).2.tags,
        t.user = u ∧ t.name = n
          ∧ t.id ∈ (RecipeSerializer.update db u r vd).1.tags)
  ∧ (∀ ings, vd.ingredients = some ings → ∀ n ∈ ings,
      ∃ i ∈ (RecipeSerializer.update db u r vd).2.ingredients,
        i.user = u ∧ i.name = n
          ∧ i.id ∈ (RecipeSerializer.update db u r vd).1.ingredients) := by
  refine ⟨?_, ?_, ?_, ?_⟩
  · intro hT
    rcases hts : vd.tags with _ | ts
    · exact absurd hts hT
    rcases hings : vd.ingredients with _ | ings
    · rw [update_eq_some_none db u r vd ts hts hings,
          update_eq_some_none db u { r with tags := [] } vd ts hts hings]
    · rw [update_eq_some_some db u r vd ts ings hts hings,
          update_eq_some_some db u { r with tags := [] } vd ts ings hts hings]
  · intro hI
    rcases hings : vd.ingredients with _ | ings
    · exact absurd hings hI
    rcases hts : vd.tags with _ | ts
    · rw [update_eq_none_some db u r vd ings hts hings,
          update_eq_none_some db u { r with ingredients := [] } vd ings hts hings]
    · rw [update_eq_some_some db u r vd ts ings hts hings,
          update_eq_some_some db u { r with ingredients := [] } vd ts ings hts hings]
  · intro ts hts n hn
    rcases hings : vd.ingredients with _ | ings
    · rw [update_eq_some_none db u r vd ts hts hings]
      obtain ⟨t, htm, hu, hn2, hid⟩ := resolveTags_provides ts db u [] n hn
      exact ⟨t, htm, hu, hn2, hid⟩
    · rw [update_eq_some_some db u r vd ts ings hts hings]
      obtain ⟨t, htm, hu, hn2, hid⟩ := resolveTags_provides ts db u [] n hn
      have htm2 :
          t ∈ (resolveIngredients (resolveTags db u [] ts).2 u [] ings).2.tags := by
        rw [(resolveIngredients_other_tables ings _ u []).1]
        exact htm
      exact ⟨t, htm2, hu, hn2, hid⟩
  · intro ings hings n hn
    rcases hts : vd.tags with _ | ts
    · rw [update_eq_none_some db u r vd ings hts hings]
      obtain ⟨i, him, hu, hn2, hid⟩ := resolveIngredients_provides ings db u [] n hn
      exact ⟨i, him, hu, hn2, hid⟩
    · rw [update_eq_some_some db u r vd ts ings hts hings]
      obtain ⟨i, him, hu, hn2, hid⟩ :=
        resolveIngredients_provides ings (resolveTags db u [] ts).2 u [] n hn
      exact ⟨i, him, hu, hn2, hid⟩

/-- Witness for the amended C1 theorem at a concrete partial update. -/
theorem update_replaces_associations_witness :
    RecipeSerializer.update exDb 1 exRecipe exPatch
        = RecipeSerializer.update exDb 1 { exRecipe with tags := [] } exPatch
      ∧ ∃ t ∈ (RecipeSerializer.update exDb 1 exRecipe exPatch).2.tags,
          t.user = 1 ∧ t.name = "Lunch"
            ∧ t.id ∈ (RecipeSerializer.update exDb 1 exRecipe exPatch).1.tags := by
  have h := update_replaces_associations_when_provided exDb 1 exRecipe exPatch
  exact ⟨h.1 (by decide), h.2.2.1 ["Lunch"] rfl "Lunch" (by simp)⟩

/-- C2: an update whose payload carries an explicitly empty tags (resp.
ingredients) list leaves the recipe with no tag (resp. ingredient)
associations at all, whatever it had before. -/
theorem update_empty_list_clears_associations
    (db : Db) (u : Nat) (r : Recipe) (vd : RecipePayload) :
    (vd.tags = some [] → (RecipeSerializer.update db u r vd).1.tags = [])
  ∧ (vd.ingredients = some [] →
      (RecipeSerializer.update db u r vd).1.ingredients = []) := by
  constructor
  · intro hts
    rcases hings : vd.ingredients with _ | ings
    · rw [update_eq_some_none db u r vd [] hts hings]
      exact rfl
    · rw [update_eq_some_some db u r vd [] ings hts hings]
      exact rfl
  · intro hings
    rcases hts : vd.tags with _ | ts
    · rw [update_eq_none_some db u r vd [] hts hings]
      exact rfl
    · rw [update_eq_some_some db u r vd ts [] hts hings]
      exact rfl

/-- Witness for C2: clearing the fixture recipe that starts with one tag. -/
theorem update_empty_list_clears_associations_witness :
    (RecipeSerializer.update exDb 1 exRecipe exClear).1.tags = []
      ∧ (RecipeSerializer.update exDb 1 exRecipe exClear).1.ingredients = [] := by
  have h := update_empty_list_clears_associations exDb 1 exRecipe exClear
  exact ⟨h.1 rfl, h.2 rfl⟩

/-- C3: a partial update without the tags (resp. ingredients) field leaves
those associations exactly as they were; the scalar fields take the provided
values and absent scalar fields keep their old values; the id never
changes. -/
theorem update_absent_field_untouched
    (db : Db) (u : Nat) (r : Recipe) (vd : RecipePayload) :
    (vd.tags = none → (RecipeSerializer.update db u r vd).1.tags = r.tags)
  ∧ (vd.ingredients = none →
      (RecipeSerializer.update db u r vd).1.ingredients = r.ingredients)
  ∧ (RecipeSerializer.update db u r vd).1.title = vd.title.getD r.title
  ∧ (RecipeSerializer.update db u r vd).1.time_minutes
      = vd.time_minutes.getD r.time_minutes
  ∧ (RecipeSerializer.update db u r vd).1.price = vd.price.getD r.price
  ∧ (RecipeSerializer.update db u r vd).1.link = vd.link.getD r.link
  ∧ (RecipeSerializer.update db u r vd).1.description
      = vd.description.getD r.description
  ∧ (RecipeSerializer.update db u r vd).1.id = r.id := by
  rcases hts : vd.tags with _ | ts <;> rcases hings : vd.ingredients with _ | ings
  · rw [update_eq_none_none db u r vd hts hings]
    exact ⟨fun _ => rfl, fun _ => rfl, rfl, rfl, rfl, rfl, rfl, rfl⟩
  · rw [update_eq_none_some db u r vd ings hts hings]
    exact ⟨fun _ => rfl, fun hc => absurd hc (by simp), rfl, rfl, rfl, rfl, rfl, rfl⟩
  · rw [update_eq_some_none db u r vd ts hts hings]
    exact ⟨fun hc => absurd hc (by simp), fun _ => rfl, rfl, rfl, rfl, rfl, rfl, rfl⟩
  · rw [update_eq_some_some db u r vd ts ings hts hings]
    exact ⟨fun hc => absurd hc (by simp), fun hc => absurd hc (by simp),
      rfl, rfl, rfl, rfl, rfl, rfl⟩

/-- Witness for C3: a title-only partial update of the fixture recipe. -/
theorem update_absent_field_untouched_witness :
    (RecipeSerializer.update exDb 1 exRecipe exScalarPatch).1.tags = exRecipe.tags
      ∧ (RecipeSerializer.update exDb 1 exRecipe exScalarPatch).1.ingredients
          = exRecipe.ingredients
      ∧ (RecipeSerializer.update exDb 1 exRecipe exScalarPatch).1.title
          = "Chicken tikka" := by
  have h := update_absent_field_untouched exDb 1 exRecipe exScalarPatch
  exact ⟨h.1 rfl, h.2.1 rfl, h.2.2.1⟩

theorem update_result_user (db : Db) (u : Nat) (r : Recipe) (vd : RecipePayload) :
    (RecipeSerializer.update db u r vd).1.user = r.user := by
  rcases hts : vd.tags with _ | ts <;> rcases hings : vd.ingredients with _ | ings
  · rw [update_eq_none_none db u r vd hts hings]
    exact rfl
  · rw [update_eq_none_some db u r vd ings hts hings]
    exact rfl
  · rw [update_eq_some_none db u r vd ts hts hings]
    exact rfl
  · rw [update_eq_some_some db u r vd ts ings hts hings]
    exact rfl

theorem update_recipes_table (db : Db) (u : Nat) (r : Recipe) (vd : RecipePayload) :
    (RecipeSerializer.update db u r vd).2.recipes
      = db.recipes.map (fun x =>
          if x.id == (RecipeSerializer.update db u r vd).1.id
          then (RecipeSerializer.update db u r vd).1 else x) := by
  rcases hts : vd.tags with _ | ts <;> rcases hings : vd.ingredients with _ | ings
  · rw [update_eq_none_none db u r vd hts hings]
    exact rfl
  · rw [update_eq_none_some db u r vd ings hts hings]
    dsimp only [saveRecipe]
    rw [(resolveIngredients_other_tables ings db u []).2]
  · rw [update_eq_some_none db u r vd ts hts hings]
    dsimp only [saveRecipe]
    rw [(resolveTags_other_tables ts db u []).2]
  · rw [update_eq_some_some db u r vd ts ings hts hings]
    dsimp only [saveRecipe]
    rw [(resolveIngredients_other_tables ings _ u []).2,
        (resolveTags_other_tables ts db u []).2]

/-- C4: the recipe owner survives any update.  `user` is not among
`RecipeSerializer.Meta.fields`, so validation drops it from any raw payload
(varying the raw `user` value cannot change the validated data), the updated
instance keeps its owner, and every stored recipe after the save either kept
its owner or is an untouched pre-existing row.  The operation succeeds —
nothing is rejected. -/
theorem update_ignores_user_field (db : Db) (u : Nat) (r : Recipe)
    (raw : RawPayload) (v : Option Nat) :
    RecipeSerializer.run_validation { raw with user := v }
        = RecipeSerializer.run_validation raw
  ∧ (RecipeSerializer.update db u r (RecipeSerializer.run_validation raw)).1.user
      = r.user
  ∧ ∀ r' ∈ (RecipeSerializer.update db u r
        (RecipeSerializer.run_validation raw)).2.recipes,
      r'.user = r.user ∨ r' ∈ db.recipes := by
  refine ⟨rfl, update_result_user db u r _, ?_⟩
  intro r' hr'
  rw [update_recipes_table db u r _] at hr'
  obtain ⟨x, hx, hfx⟩ := List.mem_map.mp hr'
  by_cases hxi :
      (x.id == (RecipeSerializer.update db u r
        (RecipeSerializer.run_validation raw)).1.id) = true
  · rw [if_pos hxi] at hfx
    left
    rw [← hfx]
    exact update_result_user db u r _
  · rw [if_neg hxi] at hfx
    right
    rw [← hfx]
    exact hx

theorem find_after_append_of_none {α : Type} (p : α → Bool) :
    ∀ (l1 l2 : List α), l1.find? p = none → (l1 ++ l2).find? p = l2.find? p
  | [], _, _ => rfl
  | a :: l1, l2, h => by
      by_cases ha : p a = true
      · rw [List.find?_cons_of_pos _ ha] at h
        exact absurd h (by simp)
      · rw [List.find?_cons_of_neg _ ha] at h
        rw [List.cons_append, List.find?_cons_of_neg _ ha]
        exact find_after_append_of_none p l1 l2 h

/-- C5: the `(user, name)`-keyed get-or-create of tags and ingredients:
an existing row is returned untouched, otherwise exactly one new row is
appended; resolving the same name twice for the same user yields the same
row and leaves the store unchanged the second time; resolving the same name
for two different users yields two distinct rows. -/
theorem get_or_create_keyed_on_user_name (db : Db) (u u' : Nat) (n : String)
    (h : u ≠ u') :
    (∀ t, db.tags.find? (tagKey u n) = some t → Tag.get_or_create db u n = (t, db))
  ∧ (db.tags.find? (tagKey u n) = none →
      (Tag.get_or_create db u n).2.tags
        = db.tags ++ [(Tag.get_or_create db u n).1])
  ∧ Tag.get_or_create (Tag.get_or_create db u n).2 u n = Tag.get_or_create db u n
  ∧ (Tag.get_or_create (Tag.get_or_create db u n).2 u' n).1
      ≠ (Tag.get_or_create db u n).1
  ∧ (∀ i, db.ingredients.find? (ingredientKey u n) = some i →
      Ingredient.get_or_create db u n = (i, db))
  ∧ (db.ingredients.find? (ingredientKey u n) = none →
      (Ingredient.get_or_create db u n).2.ingredients
        = db.ingredients ++ [(Ingredient.get_or_create db u n).1])
  ∧ Ingredient.get_or_create (Ingredient.get_or_create db u n).2 u n
      = Ingredient.get_or_create db u n
  ∧ (Ingredient.get_or_create (Ingredient.get_or_create db u n).2 u' n).1
      ≠ (Ingredient.get_or_create db u n).1 := by
  refine ⟨?_, ?_, ?_, ?_, ?_, ?_, ?_, ?_⟩
  · intro t ht
    simp [Tag.get_or_create, ht]
  · intro ht
    simp [Tag.get_or_create, ht]
  · cases hf : db.tags.find? (tagKey u n) with
    | some t =>
        have h1 : Tag.get_or_create db u n = (t, db) := by
          simp [Tag.get_or_create, hf]
        rw [h1]
        exact h1
    | none =>
        have h1 : Tag.get_or_create db u n
            = ((⟨db.next_tag_id, u, n⟩ : Tag),
               { db with tags := db.tags ++ [(⟨db.next_tag_id, u, n⟩ : Tag)],
                         next_tag_id := db.next_tag_id + 1 }) := by
          simp [Tag.get_or_create, hf]
        have h2 : (db.tags ++ [(⟨db.next_tag_id, u, n⟩ : Tag)]).find? (tagKey u n)
            = some ⟨db.next_tag_id, u, n⟩ := by
          rw [find_after_append_of_none (tagKey u n) db.tags _ hf]
          simp [tagKey]
        rw [h1]
        simp [Tag.get_or_create, h2]
  · intro he
    have h1 := (Tag.get_or_create_user_name db u n).1
    have h2 := (Tag.get_or_create_user_name (Tag.get_or_create db u n).2 u' n).1
    rw [he, h1] at h2
    exact h h2
  · intro i hi
    simp [Ingredient.get_or_create, hi]
  · intro hi
    simp [Ingredient.get_or_create, hi]
  · cases hf : db.ingredients.find? (ingredientKey u n) with
    | some i =>
        have h1 : Ingredient.get_or_create db u n = (i, db) := by
          simp [Ingredient.get_or_create, hf]
        rw [h1]
        exact h1
    | none =>
        have h1 : Ingredient.get_or_create db u n
            = ((⟨db.next_ingredient_id, u, n⟩ : Ingredient),
               { db with
                 ingredients := db.ingredients
                   ++ [(⟨db.next_ingredient_id, u, n⟩ : Ingredient)]
                 next_ingredient_id := db.next_ingredient_id + 1 }) := by
          simp [Ingredient.get_or_create, hf]
        have h2 : (db.ingredients
              ++ [(⟨db.next_ingredient_id, u, n⟩ : Ingredient)]).find?
              (ingredientKey u n) = some ⟨db.next_ingredient_id, u, n⟩ := by
          rw [find_after_append_of_none (ingredientKey u n) db.ingredients _ hf]
          simp [ingredientKey]
        rw [h1]
        simp [Ingredient.get_or_create, h2]
  · intro he
    have h1 := (Ingredient.get_or_create_owner_name db u n).1
    have h2 := (Ingredient.get_or_create_owner_name
      (Ingredient.get_or_create db u n).2 u' n).1
    rw [he, h1] at h2
    exact h h2

/-- Witness for C5 on an initially empty store. -/
theorem get_or_create_keyed_on_user_name_witness :
    (1 : Nat) ≠ 2
  ∧ Tag.get_or_create (Tag.get_or_create db0 1 "Thai").2 1 "Thai"
      = Tag.get_or_create db0 1 "Thai"
  ∧ (Tag.get_or_create (Tag.get_or_create db0 1 "Thai").2 2 "Thai").1
      ≠ (Tag.get_or_create db0 1 "Thai").1
  ∧ Ingredient.get_or_create (Ingredient.get_or_create db0 1 "Salt").2 1 "Salt"
      = Ingredient.get_or_create db0 1 "Salt" := by
  have ht := get_or_create_keyed_on_user_name db0 1 2 "Thai" (by decide)
  have hs := get_or_create_keyed_on_user_name db0 1 2 "Salt" (by decide)
  exact ⟨by decide, ht.2.2.1, ht.2.2.2.1, hs.2.2.2.2.2.2.1⟩

theorem splitAtLastAt_eq_none :
    ∀ (cs : List Char), '@' ∉ cs → splitAtLastAt cs = none
  | [], _ => rfl
  | c :: cs, h => by
      have hrec : splitAtLastAt cs = none :=
        splitAtLastAt_eq_none cs (fun hm => h (List.mem_cons_of_mem _ hm))
      have hc : ¬c = '@' := fun he => h (he ▸ List.mem_cons_self _ _)
      simp only [splitAtLastAt, hrec]
      rw [if_neg hc]

theorem splitAtLastAt_append :
    ∀ (l d : List Char), '@' ∉ d → splitAtLastAt (l ++ '@' :: d) = some (l, d)
  | [], d, h => by
      simp [splitAtLastAt, splitAtLastAt_eq_none d h]
  | c :: l, d, h => by
      have ih := splitAtLastAt_append l d h
      simp [splitAtLastAt, List.append_eq, ih]

theorem normalize_email_append (l d : List Char) (h : '@' ∉ d) :
    UserManager.normalize_email ⟨l ++ '@' :: d⟩ = ⟨l ++ '@' :: d.map Char.toLower⟩ := by
  unfold UserManager.normalize_email
  rw [show (String.mk (l ++ '@' :: d)).data = l ++ '@' :: d from rfl,
      splitAtLastAt_append l d h]

/-- C6: creating a user stores the input email with exactly the domain part
(after the `@`) lower-cased and the local part preserved character for
character. -/
theorem create_user_normalizes_domain (db : Db) (l d : List Char)
    (h : '@' ∉ d) :
    ∃ u db', UserManager.create_user db ⟨l ++ '@' :: d⟩ = Except.ok (u, db')
      ∧ u.email = ⟨l ++ '@' :: d.map Char.toLower⟩ := by
  have hne : (⟨l ++ '@' :: d⟩ : String) ≠ "" := by
    intro he
    have hd := congrArg String.data he
    simp at hd
  unfold UserManager.create_user
  rw [if_neg hne]
  exact ⟨_, _, rfl, normalize_email_append l d h⟩

/-- Witness for C6: one of the repository's own normalization test vectors,
"Test2@Example.COM" stored as "Test2@example.com". -/
theorem create_user_normalizes_domain_witness :
    '@' ∉ "Example.COM".data
  ∧ (UserManager.create_user db0 "Test2@Example.COM").toOption.map
      (fun p => p.1.email) = some "Test2@example.com" := by
  have h := create_user_normalizes_domain db0 "Test2".data "Example.COM".data
    (by decide)
  obtain ⟨u, db', heq, hemail⟩ := h
  refine ⟨by decide, ?_⟩
  rw [show ("Test2@Example.COM" : String)
        = ⟨"Test2".data ++ '@' :: "Example.COM".data⟩ from rfl, heq]
  simp only [Except.toOption, Option.map]
  rw [hemail]
  decide

/-- C7 counterexample: the claim says a non-empty email is stored as given,
but creating a user with "Test@EXAMPLE.COM" stores "Test@example.com" — the
domain is normalized, so the stored email differs from the input. -/
theorem create_user_stores_normalized_not_input :
    (UserManager.create_user db0 "Test@EXAMPLE.COM").toOption.map
        (fun p => p.1.email) = some "Test@example.com"
      ∧ "Test@example.com" ≠ "Test@EXAMPLE.COM" := by
  decide

/-- C7 (amended): creating a user with an empty email fails with an error
and no user row is produced; for every non-empty email, creation succeeds
and stores the normalized form of that email (domain lower-cased), appending
exactly one user row. -/
theorem create_user_requires_email (db : Db) (e : String) :
    (e = "" → UserManager.create_user db e
        = Except.error "User must have an email address")
  ∧ (e ≠ "" → ∃ u db', UserManager.create_user db e = Except.ok (u, db')
      ∧ u.email = UserManager.normalize_email e
      ∧ db'.users = db.users ++ [u]) := by
  constructor
  · intro he
    unfold UserManager.create_user
    rw [if_pos he]
  · intro he
    unfold UserManager.create_user
    rw [if_neg he]
    exact ⟨_, _, rfl, rfl, rfl⟩

/-- Witness for the amended C7 at an empty and a non-empty email. -/
theorem create_user_requires_email_witness :
    UserManager.create_user db0 "" = Except.error "User must have an email address"
  ∧ ∃ u db', UserManager.create_user db0 "a@b.c" = Except.ok (u, db')
      ∧ u.email = UserManager.normalize_email "a@b.c"
      ∧ db'.users = db0.users ++ [u] :=
  ⟨(create_user_requires_email db0 "").1 rfl,
   (create_user_requires_email db0 "a@b.c").2 (by decide)⟩

def otherRecipe : Recipe := ⟨7, 2, "Other recipe", 5, 100, "", "", [], []⟩

def exDbOther : Db := ⟨[exUser, exUser2], [otherRecipe], [], [], 3, 1, 1⟩

def exDbBoth : Db :=
  ⟨[exUser, exUser2], [exRecipe, otherRecipe], [tagBreakfast], [], 3, 2, 1⟩

/-- C8: a delete (or retrieve) aimed at a recipe owned by a different user
misses the requester-scoped queryset: both answer 404, the store is
unchanged, and the recipe still exists. -/
theorem delete_other_user_recipe_404 (db : Db) (u : Nat) (r : Recipe)
    (hmem : r ∈ db.recipes) (howner : r.user ≠ u)
    (hid : ∀ r' ∈ db.recipes, r'.id = r.id → r' = r) :
    RecipeViewSet.destroy db u r.id = (404, db)
  ∧ RecipeViewSet.retrieve db u r.id = Except.error 404
  ∧ r ∈ (RecipeViewSet.destroy db u r.id).2.recipes := by
  have hnone : (RecipeViewSet.get_queryset db u).find? (fun x => x.id == r.id)
      = none := by
    rw [List.find?_eq_none]
    intro x hx hpx
    simp only [RecipeViewSet.get_queryset] at hx
    have hx' := List.mem_filter.mp hx
    have hxu : x.user = u := by simpa using hx'.2
    have hxi : x.id = r.id := by simpa using hpx
    have hxr : x = r := hid x hx'.1 hxi
    exact howner (by rw [← hxr, hxu])
  have hdestroy : RecipeViewSet.destroy db u r.id = (404, db) := by
    simp [RecipeViewSet.destroy, hnone]
  refine ⟨hdestroy, ?_, ?_⟩
  · simp [RecipeViewSet.retrieve, hnone]
  · rw [hdestroy]
    exact hmem

/-- Witness for C8: user 1 tries to delete user 2's recipe. -/
theorem delete_other_user_recipe_404_witness :
    otherRecipe ∈ exDbOther.recipes
  ∧ otherRecipe.user ≠ 1
  ∧ RecipeViewSet.destroy exDbOther 1 otherRecipe.id = (404, exDbOther)
  ∧ RecipeViewSet.retrieve exDbOther 1 otherRecipe.id = Except.error 404 := by
  have h := delete_other_user_recipe_404 exDbOther 1 otherRecipe
    (by decide) (by decide) (by decide)
  exact ⟨by decide, by decide, h.1, h.2.1⟩

theorem to_representation_congr (db1 db2 : Db) (r : Recipe)
    (htags : db1.tags = db2.tags) (hings : db1.ingredients = db2.ingredients) :
    RecipeSerializer.to_representation db1 r
      = RecipeSerializer.to_representation db2 r := by
  simp [RecipeSerializer.to_representation, representationFor, recipeFieldValue,
    recipeTagRows, recipeIngredientRows, htags, hings]

/-- C9: the list endpoint returns exactly the requesting user's recipes —
every listed recipe belongs to the requester, every recipe of the requester
is listed — and two stores that agree on the requester's recipes (and on
the tag/ingredient tables the nested representation reads) produce the very
same response, however other users' recipes differ. -/
theorem recipe_list_scoped_to_user (db1 db2 : Db) (u : Nat)
    (hmine : db1.recipes.filter (fun r => r.user == u)
        = db2.recipes.filter (fun r => r.user == u))
    (htags : db1.tags = db2.tags) (hings : db1.ingredients = db2.ingredients) :
    (∀ r ∈ RecipeViewSet.get_queryset db1 u, r.user = u)
  ∧ (∀ r ∈ db1.recipes, r.user = u → r ∈ RecipeViewSet.get_queryset db1 u)
  ∧ RecipeViewSet.list db1 u = RecipeViewSet.list db2 u := by
  refine ⟨?_, ?_, ?_⟩
  · intro r hr
    simp only [RecipeViewSet.get_queryset] at hr
    have := (List.mem_filter.mp hr).2
    simpa using this
  · intro r hr hu
    simp only [RecipeViewSet.get_queryset]
    exact List.mem_filter.mpr ⟨hr, by simpa using hu⟩
  · have hfun : RecipeSerializer.to_representation db1
        = RecipeSerializer.to_representation db2 :=
      funext (fun r => to_representation_congr db1 db2 r htags hings)
    simp only [RecipeViewSet.list, RecipeViewSet.get_queryset]
    rw [hmine, hfun]

/-- Witness for C9: appending another user's recipe to the store does not
change user 1's listing. -/
theorem recipe_list_scoped_to_user_witness :
    exDb.recipes.filter (fun r => r.user == 1)
        = exDbBoth.recipes.filter (fun r => r.user == 1)
      ∧ RecipeViewSet.list exDb 1 = RecipeViewSet.list exDbBoth 1 := by
  have h := recipe_list_scoped_to_user exDb exDbBoth 1 (by decide) rfl rfl
  exact ⟨by decide, h.2.2⟩

/-- C10: `RecipeDetailSerializer` declares exactly the same field list and
the same read-only fields as `RecipeSerializer`, and renders the identical
representation for every recipe. -/
theorem recipe_detail_serializer_same_representation :
    RecipeDetailSerializer.Meta.fields = RecipeSerializer.Meta.fields
  ∧ RecipeDetailSerializer.Meta.read_only_fields
      = RecipeSerializer.Meta.read_only_fields
  ∧ ∀ (db : Db) (r : Recipe),
      RecipeDetailSerializer.to_representation db r
        = RecipeSerializer.to_representation db r :=
  ⟨rfl, rfl, fun _ _ => rfl⟩

def exRawUserPatch : RawPayload :=
  ⟨none, some 2, some "New title", none, none, none, none, none, none⟩

/-- Witness for C4: a raw patch carrying a different owner id leaves the
fixture recipe owned by user 1. -/
theorem update_ignores_user_field_witness :
    RecipeSerializer.run_validation { exRawUserPatch with user := some 5 }
        = RecipeSerializer.run_validation exRawUserPatch
      ∧ (RecipeSerializer.update exDb 1 exRecipe
          (RecipeSerializer.run_validation exRawUserPatch)).1.user = 1 := by
  have h := update_ignores_user_field exDb 1 exRecipe exRawUserPatch (some 5)
  exact ⟨h.1, h.2.1⟩
